import Mathlib

/-!
Verification of the `codelyzer` security analyzer
(`src/codelyzer/analyzers/security.py`).

The analyzer is a pattern-based vulnerability detector: it scans raw file
content with fixed regular expressions, records findings with a location and
severity, deducts a per-file security score (clamped at 0), and aggregates
vulnerability counts by type across a project.

This file shallowly embeds the analyzer.  Regular-expression patterns used by
the source are all built from literal characters, character classes,
greedy star/plus/optional over a character class, and one negative lookahead
of the fixed shape (?!['\"]\w+['\"]).  We embed exactly this fragment, with
Python's leftmost, greedy-with-backtracking match preference and
non-overlapping left-to-right `re.finditer` scanning.

Scores are Python floats in the source, but every value taken is an integer
(100 minus a sum of the integer deductions 25/15/5/1, clamped at 0), so float
arithmetic is exact and the score is embedded as an `Int`.
-/

/-- Modelled from the spec: the `SecurityLevel` enumeration comes from the
`codelyzer.metrics` module, which is not part of the provided sources.  The
spec (section 3) gives the ordered enumeration
CRITICAL, HIGH_RISK, MEDIUM_RISK, LOW_RISK. -/
inductive SecurityLevel where
  | CRITICAL
  | HIGH_RISK
  | MEDIUM_RISK
  | LOW_RISK
deriving DecidableEq

/-- Location triple returned by `_get_line_number`: 1-based line, 1-based
column, 0-based absolute position. -/
structure Location where
  line : Nat
  column : Nat
  position : Nat
deriving DecidableEq

/-- One recorded finding, as built by `_add_vulnerability`. -/
structure Vulnerability where
  type : String
  message : String
  location : Location
  level : SecurityLevel
  severity : String
deriving DecidableEq

/-- Modelled from the spec: per-file security metrics container
(`FileSecurityMetrics`), owned by the file record; the `codelyzer.metrics`
module defining it is not part of the provided sources.  The spec (section 3)
gives: `vulnerabilities` (ordered, append-only sequence) and `security_score`
(initialized to 100.0, clamped to a minimum of 0.0). -/
structure FileSecurityMetrics where
  vulnerabilities : List Vulnerability
  security_score : Int
deriving DecidableEq

/-- Modelled from the spec: the per-file record (`FileMetrics`) from the
missing `codelyzer.metrics` module; the analyzer reads its `language` and
mutates its `security` metrics. -/
structure FileMetrics where
  file_path : String
  language : String
  security : FileSecurityMetrics
deriving DecidableEq

/-- Modelled from the spec: `security_issues` on a file record is the file's
vulnerability sequence (used by `analyze_project`). -/
def security_issues (fm : FileMetrics) : List Vulnerability :=
  fm.security.vulnerabilities

/-- Modelled from the spec: project-level security metrics, holding the
type-to-count mapping.  The mapping is embedded as an association list in
insertion order, mirroring a Python dict. -/
structure ProjectSecurityMetrics where
  vulnerability_types : List (String × Nat)
deriving DecidableEq

/-- Modelled from the spec: the project-level record with the per-file
results and the project security metrics. -/
structure ProjectMetrics where
  file_metrics : List FileMetrics
  security : ProjectSecurityMetrics
deriving DecidableEq

/-- Modelled from the spec: a fresh file record, whose security score is
initialized to 100.0 before any deduction and whose vulnerability sequence is
empty. -/
def freshMetrics (lang : String) : FileMetrics :=
  { file_path := "", language := lang,
    security := { vulnerabilities := [], security_score := 100 } }

/-! ## Regular-expression fragment

Character classes and the regex constructors appearing in the source's
patterns. -/

/-- A character class: `\w`, `\s`, an explicit set, or a negated set.
The source's classes contain no letters (quotes, parens, comma, semicolon,
underscore, brace), so `re.IGNORECASE` does not affect class membership. -/
inductive CC where
  | word
  | space
  | oneOf (cs : List Char)
  | noneOf (cs : List Char)
deriving DecidableEq

/-- ASCII `\w`: letters, digits, underscore (the analyzed content is ASCII
source text). -/
def wordChar (c : Char) : Bool :=
  c.isAlphanum || c = '_'

/-- ASCII `\s`. -/
def spaceChar (c : Char) : Bool :=
  c = ' ' || c = '\t' || c = '\n' || c = '\r' || c = Char.ofNat 11 || c = Char.ofNat 12

def inCls (cc : CC) (c : Char) : Bool :=
  match cc with
  | CC.word => wordChar c
  | CC.space => spaceChar c
  | CC.oneOf cs => cs.contains c
  | CC.noneOf cs => !(cs.contains c)

/-- The regex constructors used by the source patterns: a literal character,
a single class match, greedy star/plus/optional over a class, and the one
negative lookahead (?!['\"]\w+['\"]) used by the command-injection rules. -/
inductive RE where
  | lit (c : Char)
  | cls (cc : CC)
  | star (cc : CC)
  | plus (cc : CC)
  | opt (cc : CC)
  | nlookQW
deriving DecidableEq

/-- Single-character comparison; with `ci` (re.IGNORECASE) characters compare
by lower-case folding. -/
def chEq (ci : Bool) (p c : Char) : Bool :=
  if ci then p.toLower == c.toLower else p == c

/-- The single quote character. -/
def squote : Char := Char.ofNat 39

def isQuoteCh (c : Char) : Bool :=
  c = squote || c = '"'

/-- Does `['\"]\w+['\"]` match a prefix of `s`?  Backtracking tries every
length k+1 >= 1 for the `\w+` part, so the lookahead succeeds exactly when
some split works. -/
def lookQW (s : List Char) : Bool :=
  match s with
  | [] => false
  | q :: rest =>
      isQuoteCh q &&
        (List.range rest.length).any (fun k =>
          ((rest.take (k + 1)).all wordChar) &&
            (match (rest.drop (k + 1)).head? with
             | some c => isQuoteCh c
             | none => false))

/-- Match a pattern (a sequence of `RE` elements) against a prefix of `s`,
returning the remaining suffix of the leftmost-preferred match, with
Python's greedy-with-backtracking preference: a greedy repetition first
consumes its maximal run (a star/plus over a character class can consume at
most the maximal run of class characters) and then backs off one character at
a time until the continuation succeeds. -/
def matchSeq (ci : Bool) : List RE → List Char → Option (List Char)
  | [], s => some s
  | RE.lit c :: rs, s =>
      match s with
      | [] => none
      | a :: s' => if chEq ci c a then matchSeq ci rs s' else none
  | RE.cls cc :: rs, s =>
      match s with
      | [] => none
      | a :: s' => if inCls cc a then matchSeq ci rs s' else none
  | RE.star cc :: rs, s =>
      let n := (s.takeWhile (inCls cc)).length
      (List.range (n + 1)).findSome? (fun i => matchSeq ci rs (s.drop (n - i)))
  | RE.plus cc :: rs, s =>
      match s with
      | [] => none
      | a :: s' =>
          if inCls cc a then
            let n := (s'.takeWhile (inCls cc)).length
            (List.range (n + 1)).findSome? (fun i => matchSeq ci rs (s'.drop (n - i)))
          else none
  | RE.opt cc :: rs, s =>
      match s with
      | [] => matchSeq ci rs []
      | a :: s' =>
          if inCls cc a then (matchSeq ci rs s').orElse (fun _ => matchSeq ci rs (a :: s'))
          else matchSeq ci rs (a :: s')
  | RE.nlookQW :: rs, s =>
      if lookQW s then none else matchSeq ci rs s

/-- Scanning loop of `re.finditer`: try a match at every position left to
right; after a match of length L >= 1 continue at its end (non-overlapping);
after a zero-length match advance one position.  `skip` counts positions
still covered by the previous match. -/
def scan (ci : Bool) (pat : List RE) : List Char → Nat → Nat → List (Nat × List Char)
  | [], pos, skip =>
      if skip = 0 then
        match matchSeq ci pat [] with
        | some _ => [(pos, [])]
        | none => []
      else []
  | _ :: s', pos, Nat.succ skip => scan ci pat s' (pos + 1) skip
  | a :: s', pos, 0 =>
      match matchSeq ci pat (a :: s') with
      | some rest =>
          let len := (a :: s').length - rest.length
          if len = 0 then (pos, []) :: scan ci pat s' (pos + 1) 0
          else (pos, (a :: s').take len) :: scan ci pat s' (pos + 1) (len - 1)
      | none => scan ci pat s' (pos + 1) 0

/-- All matches of `pat` in `content`, as (start position, matched text)
pairs, in the order `re.finditer` yields them. -/
def findIter (ci : Bool) (pat : List RE) (content : List Char) : List (Nat × List Char) :=
  scan ci pat content 0 0

/-- A sequence of literal characters, one `RE.lit` per character. -/
def lits (s : String) : List RE :=
  s.data.map RE.lit

/-- Python's substring test `needle in hay`. -/
def sub_in (needle hay : List Char) : Bool :=
  hay.tails.any (fun t => needle.isPrefixOf t)

/-! ## The source's patterns -/

def ccNotParen : CC := CC.noneOf [')']
def ccNotComma : CC := CC.noneOf [',']
def ccNotCommaParen : CC := CC.noneOf [',', ')']
def ccQuote : CC := CC.oneOf [squote, '"']
def ccNotQuote : CC := CC.noneOf [squote, '"']
def ccNotSemi : CC := CC.noneOf [';']
def ccNotRBrace : CC := CC.noneOf [Char.ofNat 125]
def ccUnderscore : CC := CC.oneOf ['_']

/-- Pattern os\.system\((?!['\"]\w+['\"])[^\)]*\) -/
def patOsSystem : List RE :=
  lits "os.system(" ++ [RE.nlookQW, RE.star ccNotParen, RE.lit ')']

/-- Pattern subprocess\.call\((?!['\"]\w+['\"])[^\)]*\) -/
def patSubprocessCall : List RE :=
  lits "subprocess.call(" ++ [RE.nlookQW, RE.star ccNotParen, RE.lit ')']

/-- Pattern subprocess\.Popen\((?!['\"]\w+['\"])[^\)]*\) -/
def patSubprocessPopen : List RE :=
  lits "subprocess.Popen(" ++ [RE.nlookQW, RE.star ccNotParen, RE.lit ')']

/-- Pattern eval\([^\)]*\) -/
def patEvalStar : List RE :=
  lits "eval(" ++ [RE.star ccNotParen, RE.lit ')']

/-- Pattern execute\([^,]*\+[^\)]*\) -/
def patSqlPlus : List RE :=
  lits "execute(" ++ [RE.star ccNotComma, RE.lit '+', RE.star ccNotParen, RE.lit ')']

/-- Pattern execute\([^,]*%[^\)]*\) -/
def patSqlPercent : List RE :=
  lits "execute(" ++ [RE.star ccNotComma, RE.lit '%', RE.star ccNotParen, RE.lit ')']

/-- Pattern execute\([^,]*f['\"][^'\"]*{[^}]*}[^'\"]*['\"]  (the braces are
literal characters in the source pattern). -/
def patSqlFString : List RE :=
  lits "execute(" ++
    [RE.star ccNotComma, RE.lit 'f', RE.cls ccQuote, RE.star ccNotQuote,
     RE.lit (Char.ofNat 123), RE.star ccNotRBrace, RE.lit (Char.ofNat 125),
     RE.star ccNotQuote, RE.cls ccQuote]

/-- Pattern cursor\.execute\([^,]*\+[^\)]*\) -/
def patSqlCursor : List RE :=
  lits "cursor.execute(" ++ [RE.star ccNotComma, RE.lit '+', RE.star ccNotParen, RE.lit ')']

/-- Pattern pickle\.loads\( -/
def patPickleLoads : List RE := lits "pickle.loads("

/-- Pattern pickle\.load\( -/
def patPickleLoad : List RE := lits "pickle.load("

/-- Pattern yaml\.load\([^,)]*\) -/
def patYamlLoad : List RE :=
  lits "yaml.load(" ++ [RE.star ccNotCommaParen, RE.lit ')']

/-- Pattern marshal\.loads\( -/
def patMarshalLoads : List RE := lits "marshal.loads("

/-- Tail common to all four hardcoded-secret patterns:
\s*=\s*['\"][^'\"]+['\"] -/
def patSecretTail : List RE :=
  [RE.star CC.space, RE.lit '=', RE.star CC.space,
   RE.cls ccQuote, RE.plus ccNotQuote, RE.cls ccQuote]

/-- Pattern password\s*=\s*['\"][^'\"]+['\"]  (matched with re.IGNORECASE) -/
def patSecretPassword : List RE := lits "password" ++ patSecretTail

/-- Pattern api[_]?key\s*=\s*['\"][^'\"]+['\"]  (matched with re.IGNORECASE) -/
def patSecretApiKey : List RE :=
  lits "api" ++ [RE.opt ccUnderscore] ++ lits "key" ++ patSecretTail

/-- Pattern secret\s*=\s*['\"][^'\"]+['\"]  (matched with re.IGNORECASE) -/
def patSecretSecret : List RE := lits "secret" ++ patSecretTail

/-- Pattern token\s*=\s*['\"][^'\"]+['\"]  (matched with re.IGNORECASE) -/
def patSecretToken : List RE := lits "token" ++ patSecretTail

/-- Pattern eval\([^\)]+\)  (JavaScript rule) -/
def patJsEval : List RE :=
  lits "eval(" ++ [RE.plus ccNotParen, RE.lit ')']

/-- Pattern document\.write\([^\)]+\) -/
def patDocumentWrite : List RE :=
  lits "document.write(" ++ [RE.plus ccNotParen, RE.lit ')']

/-- Pattern \.innerHTML\s*=\s*[^;]+ -/
def patInnerHtml : List RE :=
  [RE.lit '.'] ++ lits "innerHTML" ++
    [RE.star CC.space, RE.lit '=', RE.star CC.space, RE.plus ccNotSemi]

/-! ## The analyzer's operations (from `security.py`) -/

/-- Python's list-of-segments split `content[:position].split('\n')`:
splitting an empty string yields one empty segment. -/
def splitNl : List Char → List (List Char)
  | [] => [[]]
  | c :: cs =>
      let r := splitNl cs
      if c = '\n' then [] :: r
      else
        match r with
        | h :: t => (c :: h) :: t
        | [] => [[c]]

/-- `_get_line_number`: `lines = content[:position].split('\n')`,
`line = len(lines)`, `column = len(lines[-1]) + 1`. -/
def _get_line_number (content : String) (position : Nat) : Location :=
  let lines := splitNl (content.data.take position)
  { line := lines.length,
    column := (lines.getLastD []).length + 1,
    position := position }

/-- `_level_to_severity`: the severity label string for a level. -/
def _level_to_severity (level : SecurityLevel) : String :=
  if level = SecurityLevel.CRITICAL then "critical"
  else if level = SecurityLevel.HIGH_RISK then "high"
  else if level = SecurityLevel.MEDIUM_RISK then "medium"
  else if level = SecurityLevel.LOW_RISK then "low"
  else "info"

/-- `_add_vulnerability`: append the record and deduct from the score per the
severity if-chain, then clamp at 0.0. -/
def _add_vulnerability (fm : FileMetrics) (vuln_type : String) (message : String)
    (location : Location) (level : SecurityLevel) : FileMetrics :=
  let vulnerability : Vulnerability :=
    { type := vuln_type, message := message, location := location,
      level := level, severity := _level_to_severity level }
  let sec0 := { fm.security with
                vulnerabilities := fm.security.vulnerabilities ++ [vulnerability] }
  let score1 :=
    if level = SecurityLevel.CRITICAL then sec0.security_score - 25
    else if level = SecurityLevel.HIGH_RISK then sec0.security_score - 15
    else if level = SecurityLevel.MEDIUM_RISK then sec0.security_score - 5
    else if level = SecurityLevel.LOW_RISK then sec0.security_score - 1
    else sec0.security_score
  { fm with security := { sec0 with security_score := max 0 score1 } }

/-- `_check_for_os_command_injection`: four case-sensitive patterns, each
match recorded as an os_command_injection at HIGH_RISK. -/
def _check_for_os_command_injection (fm : FileMetrics) (file_content : String) : FileMetrics :=
  let patterns := [patOsSystem, patSubprocessCall, patSubprocessPopen, patEvalStar]
  patterns.foldl (fun fm pat =>
    (findIter false pat file_content.data).foldl (fun fm m =>
      let location := _get_line_number file_content m.1
      _add_vulnerability fm "os_command_injection"
        ("Possible command injection at line " ++ toString location.line)
        location SecurityLevel.HIGH_RISK) fm) fm

/-- `_check_for_sql_injection`: four case-sensitive patterns, each match
recorded as a sql_injection at CRITICAL. -/
def _check_for_sql_injection (fm : FileMetrics) (file_content : String) : FileMetrics :=
  let patterns := [patSqlPlus, patSqlPercent, patSqlFString, patSqlCursor]
  patterns.foldl (fun fm pat =>
    (findIter false pat file_content.data).foldl (fun fm m =>
      let location := _get_line_number file_content m.1
      _add_vulnerability fm "sql_injection"
        ("Possible SQL injection at line " ++ toString location.line)
        location SecurityLevel.CRITICAL) fm) fm

/-- `_check_for_eval` (JavaScript): unsafe_eval at HIGH_RISK. -/
def _check_for_eval (fm : FileMetrics) (file_content : String) : FileMetrics :=
  (findIter false patJsEval file_content.data).foldl (fun fm m =>
    let location := _get_line_number file_content m.1
    _add_vulnerability fm "unsafe_eval"
      ("Unsafe eval() usage at line " ++ toString location.line)
      location SecurityLevel.HIGH_RISK) fm

/-- `_check_for_document_write` (JavaScript): document_write at MEDIUM_RISK. -/
def _check_for_document_write (fm : FileMetrics) (file_content : String) : FileMetrics :=
  (findIter false patDocumentWrite file_content.data).foldl (fun fm m =>
    let location := _get_line_number file_content m.1
    _add_vulnerability fm "document_write"
      ("Unsafe document.write() at line " ++ toString location.line)
      location SecurityLevel.MEDIUM_RISK) fm

/-- `_check_for_innerhtml` (JavaScript): innerhtml at MEDIUM_RISK. -/
def _check_for_innerhtml (fm : FileMetrics) (file_content : String) : FileMetrics :=
  (findIter false patInnerHtml file_content.data).foldl (fun fm m =>
    let location := _get_line_number file_content m.1
    _add_vulnerability fm "innerhtml"
      ("Potentially unsafe innerHTML usage at line " ++ toString location.line)
      location SecurityLevel.MEDIUM_RISK) fm

/-- `_check_for_insecure_deserialization`: four case-sensitive patterns, each
match recorded as insecure_deserialization at HIGH_RISK. -/
def _check_for_insecure_deserialization (fm : FileMetrics) (file_content : String) : FileMetrics :=
  let patterns := [patPickleLoads, patPickleLoad, patYamlLoad, patMarshalLoads]
  patterns.foldl (fun fm pat =>
    (findIter false pat file_content.data).foldl (fun fm m =>
      let location := _get_line_number file_content m.1
      _add_vulnerability fm "insecure_deserialization"
        ("Insecure deserialization at line " ++ toString location.line)
        location SecurityLevel.HIGH_RISK) fm) fm

/-- Loop body of `_check_for_hardcoded_secrets`: a match whose text contains
an environment-variable idiom is skipped; otherwise it is recorded as a
hardcoded_secret at HIGH_RISK. -/
def secret_match_step (file_content : String) (fm : FileMetrics)
    (m : Nat × List Char) : FileMetrics :=
  if sub_in "os.environ".data m.2 || sub_in "process.env".data m.2 then fm
  else
    let location := _get_line_number file_content m.1
    _add_vulnerability fm "hardcoded_secret"
      ("Possible hardcoded secret at line " ++ toString location.line)
      location SecurityLevel.HIGH_RISK

/-- `_check_for_hardcoded_secrets`: four patterns matched with re.IGNORECASE,
with the environment-variable suppression applied per match. -/
def _check_for_hardcoded_secrets (fm : FileMetrics) (file_content : String) : FileMetrics :=
  let patterns := [patSecretPassword, patSecretApiKey, patSecretSecret, patSecretToken]
  patterns.foldl (fun fm pat =>
    (findIter true pat file_content.data).foldl (secret_match_step file_content) fm) fm

/-- `_analyze_python_security`: the four Python checks, in source order.  The
`ast_data` argument is accepted and passed through, but no check consults
it. -/
def _analyze_python_security {A : Type} (fm : FileMetrics) (file_content : String)
    (ast_data : A) : FileMetrics :=
  let fm := _check_for_os_command_injection fm file_content
  let fm := _check_for_sql_injection fm file_content
  let fm := _check_for_insecure_deserialization fm file_content
  let fm := _check_for_hardcoded_secrets fm file_content
  fm

/-- `_analyze_js_security`: the four JavaScript checks, in source order. -/
def _analyze_js_security {A : Type} (fm : FileMetrics) (file_content : String)
    (ast_data : A) : FileMetrics :=
  let fm := _check_for_eval fm file_content
  let fm := _check_for_document_write fm file_content
  let fm := _check_for_innerhtml fm file_content
  let fm := _check_for_hardcoded_secrets fm file_content
  fm

/-- `analyze_file`: empty content is a no-op; dispatch on the language tag;
an unrecognized language runs no checks. -/
def analyze_file {A : Type} (fm : FileMetrics) (file_content : String)
    (ast_data : A) : FileMetrics :=
  if file_content = "" then fm
  else if fm.language = "python" then
    _analyze_python_security fm file_content ast_data
  else if fm.language ∈ ["javascript", "typescript", "jsx"] then
    _analyze_js_security fm file_content ast_data
  else fm

/-- Increment the value at the first occurrence of key `k` (a Python dict
cell update `d[k] += 1` on an association list). -/
def incrFirst : List (String × Nat) → String → List (String × Nat)
  | [], _ => []
  | (a, n) :: t, k => if a = k then (a, n + 1) :: t else (a, n) :: incrFirst t k

/-- One vulnerability of `analyze_project`'s tally loop:
`if vuln_type not in d: d[vuln_type] = 0` then `d[vuln_type] += 1`. -/
def tallyStep (m : List (String × Nat)) (k : String) : List (String × Nat) :=
  let m' := if m.any (fun p => p.1 = k) then m else m ++ [(k, 0)]
  incrFirst m' k

/-- `analyze_project`: rebuild the project-level type-to-count mapping from
every file's vulnerability sequence and store it. -/
def analyze_project (pm : ProjectMetrics) : ProjectMetrics :=
  let vulnerability_types :=
    pm.file_metrics.foldl (fun m fm =>
      (security_issues fm).foldl (fun m vuln => tallyStep m vuln.type) m) []
  { pm with security := { pm.security with vulnerability_types := vulnerability_types } }

/-- Dictionary lookup with a default (used to state aggregation facts): the
value at the first occurrence of the key, mirroring `d.get(k, default)`. -/
def dictGetD : List (String × Nat) → String → Nat → Nat
  | [], _, d => d
  | p :: tl, k, d => if p.1 = k then p.2 else dictGetD tl k d

/-! ## Specification-side definitions -/

/-- Fixed score deduction per severity (spec section 3). -/
def deduction : SecurityLevel → Int
  | SecurityLevel.CRITICAL => 25
  | SecurityLevel.HIGH_RISK => 15
  | SecurityLevel.MEDIUM_RISK => 5
  | SecurityLevel.LOW_RISK => 1

/-- Total penalty of a vulnerability sequence: the sum of the per-severity
deductions. -/
def sevPenalty (vs : List Vulnerability) : Int :=
  (vs.map (fun v => deduction v.level)).sum

/-- Number of newline characters strictly before offset `p`. -/
def newlinesBefore (content : String) (p : Nat) : Nat :=
  (content.data.take p).count '\n'

/-- Number of characters between the last newline before offset `p` (or the
start of the content) and `p`. -/
def charsSinceLastNewline (content : String) (p : Nat) : Nat :=
  ((content.data.take p).reverse.takeWhile (fun c => c != '\n')).length

/-! ## Generic lemmas -/

lemma list_foldl_preserve {α β : Type} (P : α → Prop) (f : α → β → α)
    (h : ∀ a b, P a → P (f a b)) :
    ∀ (l : List β) (a : α), P a → P (l.foldl f a) := by
  intro l
  induction l with
  | nil => intro a ha; exact ha
  | cons x xs ih => intro a ha; exact ih (f a x) (h a x ha)

lemma add_vulnerability_vulns (fm : FileMetrics) (t msg : String) (loc : Location)
    (lvl : SecurityLevel) :
    (_add_vulnerability fm t msg loc lvl).security.vulnerabilities
      = fm.security.vulnerabilities
          ++ [{ type := t, message := msg, location := loc, level := lvl,
                severity := _level_to_severity lvl }] := rfl

lemma add_vulnerability_score (fm : FileMetrics) (t msg : String) (loc : Location)
    (lvl : SecurityLevel) :
    (_add_vulnerability fm t msg loc lvl).security.security_score
      = max 0 (fm.security.security_score - deduction lvl) := by
  cases lvl <;> rfl

lemma deduction_nonneg (lvl : SecurityLevel) : 0 ≤ deduction lvl := by
  cases lvl <;> decide

lemma sevPenalty_append (l : List Vulnerability) (v : Vulnerability) :
    sevPenalty (l ++ [v]) = sevPenalty l + deduction v.level := by
  simp [sevPenalty]

/-- Any property preserved by `_add_vulnerability` is preserved by each of
the per-language checks and hence by `analyze_file`. -/
lemma check_os_preserve (P : FileMetrics → Prop)
    (h : ∀ fm t msg loc lvl, P fm → P (_add_vulnerability fm t msg loc lvl)) :
    ∀ (fm : FileMetrics) (c : String), P fm → P (_check_for_os_command_injection fm c) := by
  intro fm c hp
  unfold _check_for_os_command_injection
  refine list_foldl_preserve P _ ?_ _ _ hp
  intro a pat ha
  refine list_foldl_preserve P _ ?_ _ _ ha
  intro a' m ha'
  exact h _ _ _ _ _ ha'

lemma check_sql_preserve (P : FileMetrics → Prop)
    (h : ∀ fm t msg loc lvl, P fm → P (_add_vulnerability fm t msg loc lvl)) :
    ∀ (fm : FileMetrics) (c : String), P fm → P (_check_for_sql_injection fm c) := by
  intro fm c hp
  unfold _check_for_sql_injection
  refine list_foldl_preserve P _ ?_ _ _ hp
  intro a pat ha
  refine list_foldl_preserve P _ ?_ _ _ ha
  intro a' m ha'
  exact h _ _ _ _ _ ha'

lemma check_deser_preserve (P : FileMetrics → Prop)
    (h : ∀ fm t msg loc lvl, P fm → P (_add_vulnerability fm t msg loc lvl)) :
    ∀ (fm : FileMetrics) (c : String), P fm → P (_check_for_insecure_deserialization fm c) := by
  intro fm c hp
  unfold _check_for_insecure_deserialization
  refine list_foldl_preserve P _ ?_ _ _ hp
  intro a pat ha
  refine list_foldl_preserve P _ ?_ _ _ ha
  intro a' m ha'
  exact h _ _ _ _ _ ha'

lemma check_secrets_preserve (P : FileMetrics → Prop)
    (h : ∀ fm t msg loc lvl, P fm → P (_add_vulnerability fm t msg loc lvl)) :
    ∀ (fm : FileMetrics) (c : String), P fm → P (_check_for_hardcoded_secrets fm c) := by
  intro fm c hp
  unfold _check_for_hardcoded_secrets
  refine list_foldl_preserve P _ ?_ _ _ hp
  intro a pat ha
  refine list_foldl_preserve P _ ?_ _ _ ha
  intro a' m ha'
  unfold secret_match_step
  split
  · exact ha'
  · exact h _ _ _ _ _ ha'

lemma check_eval_preserve (P : FileMetrics → Prop)
    (h : ∀ fm t msg loc lvl, P fm → P (_add_vulnerability fm t msg loc lvl)) :
    ∀ (fm : FileMetrics) (c : String), P fm → P (_check_for_eval fm c) := by
  intro fm c hp
  unfold _check_for_eval
  refine list_foldl_preserve P _ ?_ _ _ hp
  intro a' m ha'
  exact h _ _ _ _ _ ha'

lemma check_docwrite_preserve (P : FileMetrics → Prop)
    (h : ∀ fm t msg loc lvl, P fm → P (_add_vulnerability fm t msg loc lvl)) :
    ∀ (fm : FileMetrics) (c : String), P fm → P (_check_for_document_write fm c) := by
  intro fm c hp
  unfold _check_for_document_write
  refine list_foldl_preserve P _ ?_ _ _ hp
  intro a' m ha'
  exact h _ _ _ _ _ ha'

lemma check_innerhtml_preserve (P : FileMetrics → Prop)
    (h : ∀ fm t msg loc lvl, P fm → P (_add_vulnerability fm t msg loc lvl)) :
    ∀ (fm : FileMetrics) (c : String), P fm → P (_check_for_innerhtml fm c) := by
  intro fm c hp
  unfold _check_for_innerhtml
  refine list_foldl_preserve P _ ?_ _ _ hp
  intro a' m ha'
  exact h _ _ _ _ _ ha'

lemma analyze_file_preserve (P : FileMetrics → Prop)
    (h : ∀ fm t msg loc lvl, P fm → P (_add_vulnerability fm t msg loc lvl)) :
    ∀ (A : Type) (fm : FileMetrics) (c : String) (ast : A),
      P fm → P (analyze_file fm c ast) := by
  intro A fm c ast hp
  unfold analyze_file
  split
  · exact hp
  · split
    · unfold _analyze_python_security
      exact check_secrets_preserve P h _ _
        (check_deser_preserve P h _ _
          (check_sql_preserve P h _ _ (check_os_preserve P h _ _ hp)))
    · split
      · unfold _analyze_js_security
        exact check_secrets_preserve P h _ _
          (check_innerhtml_preserve P h _ _
            (check_docwrite_preserve P h _ _ (check_eval_preserve P h _ _ hp)))
      · exact hp

set_option maxRecDepth 8000

/-! ## Claims -/

/-- C1: starting from a fresh record with score 100, the final security score
after `analyze_file` equals max(0, 100 - sum of per-severity penalties of the
recorded vulnerabilities) with penalties 25/15/5/1; the penalty sum is
invariant under permutation of the recorded vulnerabilities, so the score
depends only on the multiset of severities and not on insertion order. -/
theorem security_score_multiset_invariant :
    (∀ (A : Type) (fm : FileMetrics) (content : String) (ast : A),
       fm.security.security_score = 100 →
       fm.security.vulnerabilities = [] →
       (analyze_file fm content ast).security.security_score
         = max 0 (100 - sevPenalty (analyze_file fm content ast).security.vulnerabilities)) ∧
    (∀ (l₁ l₂ : List Vulnerability), l₁.Perm l₂ → sevPenalty l₁ = sevPenalty l₂) ∧
    (deduction SecurityLevel.CRITICAL = 25 ∧ deduction SecurityLevel.HIGH_RISK = 15 ∧
     deduction SecurityLevel.MEDIUM_RISK = 5 ∧ deduction SecurityLevel.LOW_RISK = 1) := by
  refine ⟨?_, ?_, by decide⟩
  · intro A fm content ast h100 hnil
    refine analyze_file_preserve
      (fun g => g.security.security_score
        = max 0 (100 - sevPenalty g.security.vulnerabilities)) ?_ A fm content ast ?_
    · intro g t msg loc lvl hg
      show (_add_vulnerability g t msg loc lvl).security.security_score
        = max 0 (100 - sevPenalty (_add_vulnerability g t msg loc lvl).security.vulnerabilities)
      rw [add_vulnerability_score, add_vulnerability_vulns, sevPenalty_append, hg]
      dsimp only
      have hd := deduction_nonneg lvl
      omega
    · show fm.security.security_score
        = max 0 (100 - sevPenalty fm.security.vulnerabilities)
      rw [h100, hnil]
      decide
  · intro l₁ l₂ hp
    exact List.Perm.sum_eq (hp.map _)

/-- Witness for C1 at a concrete input. -/
theorem security_score_multiset_invariant_witness :
    (analyze_file (freshMetrics "python") "eval(x)" ()).security.security_score
      = max 0 (100 - sevPenalty
          (analyze_file (freshMetrics "python") "eval(x)" ()).security.vulnerabilities) :=
  security_score_multiset_invariant.1 Unit (freshMetrics "python") "eval(x)" () rfl rfl

/-- C6: from any state with score in [0, 100], every `_add_vulnerability`
step and every `analyze_file` run keeps the score in [0, 100] and never
increases it; content with five CRITICAL matches (total penalty 125) is
clamped to exactly 0. -/
theorem security_score_bounds_and_clamp :
    (∀ (fm : FileMetrics) (t msg : String) (loc : Location) (lvl : SecurityLevel),
       0 ≤ fm.security.security_score → fm.security.security_score ≤ 100 →
       0 ≤ (_add_vulnerability fm t msg loc lvl).security.security_score ∧
       (_add_vulnerability fm t msg loc lvl).security.security_score ≤ 100 ∧
       (_add_vulnerability fm t msg loc lvl).security.security_score
         ≤ fm.security.security_score) ∧
    (∀ (A : Type) (fm : FileMetrics) (content : String) (ast : A),
       0 ≤ fm.security.security_score → fm.security.security_score ≤ 100 →
       0 ≤ (analyze_file fm content ast).security.security_score ∧
       (analyze_file fm content ast).security.security_score ≤ 100 ∧
       (analyze_file fm content ast).security.security_score
         ≤ fm.security.security_score) ∧
    ((analyze_file (freshMetrics "python")
        "execute(a+b),execute(a+b),execute(a+b),execute(a+b),execute(a+b)"
        ()).security.security_score = 0 ∧
     sevPenalty (analyze_file (freshMetrics "python")
        "execute(a+b),execute(a+b),execute(a+b),execute(a+b),execute(a+b)"
        ()).security.vulnerabilities = 125) := by
  refine ⟨?_, ?_, by decide⟩
  · intro fm t msg loc lvl h0 h1
    rw [add_vulnerability_score]
    have hd := deduction_nonneg lvl
    omega
  · intro A fm content ast h0 h1
    refine analyze_file_preserve
      (fun g => 0 ≤ g.security.security_score ∧ g.security.security_score ≤ 100 ∧
        g.security.security_score ≤ fm.security.security_score)
      ?_ A fm content ast ⟨h0, h1, le_refl _⟩
    intro g t msg loc lvl hg
    show 0 ≤ (_add_vulnerability g t msg loc lvl).security.security_score ∧
      (_add_vulnerability g t msg loc lvl).security.security_score ≤ 100 ∧
      (_add_vulnerability g t msg loc lvl).security.security_score
        ≤ fm.security.security_score
    obtain ⟨hg0, hg1, hg2⟩ := hg
    rw [add_vulnerability_score]
    have hd := deduction_nonneg lvl
    omega

/-- Witness for C6 at a concrete input. -/
theorem security_score_bounds_and_clamp_witness :
    0 ≤ (analyze_file (freshMetrics "python") "eval(y)" ()).security.security_score ∧
    (analyze_file (freshMetrics "python") "eval(y)" ()).security.security_score ≤ 100 ∧
    (analyze_file (freshMetrics "python") "eval(y)" ()).security.security_score
      ≤ (freshMetrics "python").security.security_score :=
  security_score_bounds_and_clamp.2.1 Unit (freshMetrics "python") "eval(y)" ()
    (by decide) (by decide)

/-- C2: on a fresh Python record, the two-line content consisting of
password = "s3cr3t" and os.system(user_input) yields exactly two recorded
vulnerabilities, an os_command_injection (HIGH_RISK, line 2) and a
hardcoded_secret (HIGH_RISK, line 1), and a final security score of 70. -/
theorem end_to_end_python_example :
    ((analyze_file (freshMetrics "python")
        "password = \"s3cr3t\"\nos.system(user_input)" ()).security.vulnerabilities.map
          (fun v => (v.type, v.level, v.location.line))
      = [("os_command_injection", SecurityLevel.HIGH_RISK, 2),
         ("hardcoded_secret", SecurityLevel.HIGH_RISK, 1)]) ∧
    (analyze_file (freshMetrics "python")
        "password = \"s3cr3t\"\nos.system(user_input)" ()).security.security_score = 70 := by
  constructor
  · decide
  · decide

/-- C7: `analyze_file` is a pure no-op — the record, its vulnerability
sequence and its security score are unchanged — when the content is empty or
when the language tag is none of python, javascript, typescript, jsx. -/
theorem analyze_file_noop_cases :
    ∀ (A : Type) (fm : FileMetrics) (ast : A),
      (analyze_file fm "" ast = fm) ∧
      (fm.language ∉ (["python", "javascript", "typescript", "jsx"] : List String) →
        ∀ (content : String), analyze_file fm content ast = fm) := by
  intro A fm ast
  constructor
  · rfl
  · intro hlang content
    unfold analyze_file
    split
    · rfl
    · rw [if_neg, if_neg]
      · intro hmem
        exact hlang (by simp_all)
      · intro hpy
        exact hlang (by simp [hpy])

/-- Witness for C7 at a concrete input. -/
theorem analyze_file_noop_cases_witness :
    analyze_file (freshMetrics "rust") "eval(x)" () = freshMetrics "rust" :=
  (analyze_file_noop_cases Unit (freshMetrics "rust") ()).2 (by decide) "eval(x)"

/-- C9: the syntax-handle argument has no influence on the outcome of
`analyze_file` — two runs with arbitrary handles (of arbitrary, even
different, types) produce identical resulting records, hence identical
vulnerability sequences and scores. -/
theorem ast_data_has_no_influence :
    ∀ (A B : Type) (a : A) (b : B) (fm : FileMetrics) (content : String),
      analyze_file fm content a = analyze_file fm content b := by
  intro A B a b fm content
  rfl

/-! ## Aggregation lemmas (for the project-level tally) -/

lemma incrFirst_getD_mem (k t : String) :
    ∀ (m : List (String × Nat)),
      m.any (fun p => p.1 = k) = true →
      dictGetD (incrFirst m k) t 0 = dictGetD m t 0 + (if t = k then 1 else 0) := by
  intro m
  induction m with
  | nil => intro h; simp at h
  | cons a tl ih =>
      obtain ⟨a1, a2⟩ := a
      intro h
      by_cases hak : a1 = k
      · subst hak
        by_cases hta : t = a1
        · subst hta
          simp [incrFirst, dictGetD]
        · have hat : ¬(a1 = t) := fun hh => hta hh.symm
          simp [incrFirst, dictGetD, hta, hat]
      · have htl : tl.any (fun p => p.1 = k) = true := by
          simp only [List.any_cons] at h
          rcases Bool.or_eq_true_iff.mp h with h1 | h1
          · exact absurd (of_decide_eq_true h1) hak
          · exact h1
        by_cases hta : a1 = t
        · have htk : ¬(t = k) := fun hh => hak (hta.trans hh)
          simp [incrFirst, dictGetD, hak, hta, htk]
        · simp [incrFirst, dictGetD, hak, hta]
          exact ih htl

lemma incrFirst_append_not_mem (k : String) :
    ∀ (m : List (String × Nat)),
      (∀ p ∈ m, p.1 ≠ k) →
      incrFirst (m ++ [(k, 0)]) k = m ++ [(k, 1)] := by
  intro m
  induction m with
  | nil => intro _; simp [incrFirst]
  | cons a tl ih =>
      intro h
      have hak : a.1 ≠ k := h a (List.mem_cons_self a tl)
      have htl : ∀ p ∈ tl, p.1 ≠ k := fun p hp => h p (List.mem_cons_of_mem a hp)
      obtain ⟨a1, a2⟩ := a
      simp only [List.cons_append, incrFirst, hak, if_neg, not_false_iff,
        List.append_eq]
      rw [ih htl]

lemma dictGetD_append_single (k t : String) :
    ∀ (m : List (String × Nat)),
      (∀ p ∈ m, p.1 ≠ k) →
      dictGetD (m ++ [(k, 1)]) t 0 = dictGetD m t 0 + (if t = k then 1 else 0) := by
  intro m
  induction m with
  | nil =>
      intro _
      by_cases htk : t = k
      · simp [dictGetD, htk]
      · have : ¬(k = t) := fun hh => htk hh.symm
        simp [dictGetD, this, htk]
  | cons a tl ih =>
      intro h
      have htl : ∀ p ∈ tl, p.1 ≠ k := fun p hp => h p (List.mem_cons_of_mem a hp)
      by_cases hta : a.1 = t
      · simp only [List.cons_append, dictGetD, hta, if_pos]
        have hak : a.1 ≠ k := h a (List.mem_cons_self a tl)
        have htk : ¬(t = k) := by
          intro hh; exact hak (hta.trans hh)
        simp [htk]
      · simp only [List.cons_append, dictGetD, hta, if_false]
        exact ih htl

lemma tallyStep_getD (m : List (String × Nat)) (k t : String) :
    dictGetD (tallyStep m k) t 0 = dictGetD m t 0 + (if t = k then 1 else 0) := by
  unfold tallyStep
  by_cases hmem : m.any (fun p => p.1 = k) = true
  · simp only [hmem, if_pos]
    exact incrFirst_getD_mem k t m hmem
  · have hnot : ∀ p ∈ m, p.1 ≠ k := by
      intro p hp hpk
      exact hmem (List.any_eq_true.mpr ⟨p, hp, by simp [hpk]⟩)
    simp only [hmem, if_neg, Bool.not_eq_true]
    rw [incrFirst_append_not_mem k m hnot]
    exact dictGetD_append_single k t m hnot

lemma tally_vulns_getD (t : String) :
    ∀ (vulns : List Vulnerability) (m : List (String × Nat)),
      dictGetD (vulns.foldl (fun m v => tallyStep m v.type) m) t 0
        = dictGetD m t 0 + vulns.countP (fun v => v.type = t) := by
  intro vulns
  induction vulns with
  | nil => intro m; simp
  | cons v vs ih =>
      intro m
      simp only [List.foldl_cons]
      rw [ih (tallyStep m v.type), tallyStep_getD]
      rw [List.countP_cons]
      by_cases hvt : v.type = t
      · simp [hvt]
        omega
      · have htv : ¬(t = v.type) := fun hh => hvt hh.symm
        simp [hvt, htv]

lemma tally_files_getD (t : String) :
    ∀ (files : List FileMetrics) (m : List (String × Nat)),
      dictGetD (files.foldl (fun m fm =>
          (security_issues fm).foldl (fun m vuln => tallyStep m vuln.type) m) m) t 0
        = dictGetD m t 0
            + (files.map (fun fm => (security_issues fm).countP (fun v => v.type = t))).sum := by
  intro files
  induction files with
  | nil => intro m; simp
  | cons f fs ih =>
      intro m
      simp only [List.foldl_cons, List.map_cons, List.sum_cons]
      rw [ih, tally_vulns_getD]
      omega

/-- C3: after `analyze_project`, the project mapping sends each type `t` to
the total number of vulnerabilities of type `t` across all files'
vulnerability sequences; running `analyze_project` twice on the same input
gives the same result as running it once (the mapping is rebuilt, not
accumulated); and an empty file set yields an empty mapping regardless of any
stale project mapping. -/
theorem vulnerability_types_aggregation :
    (∀ (pm : ProjectMetrics) (t : String),
       dictGetD (analyze_project pm).security.vulnerability_types t 0
         = (pm.file_metrics.map
             (fun fm => (security_issues fm).countP (fun v => v.type = t))).sum) ∧
    (∀ (pm : ProjectMetrics), analyze_project (analyze_project pm) = analyze_project pm) ∧
    (∀ (s : ProjectSecurityMetrics),
       (analyze_project { file_metrics := [], security := s }).security.vulnerability_types
         = []) := by
  refine ⟨?_, ?_, ?_⟩
  · intro pm t
    show dictGetD (pm.file_metrics.foldl (fun m fm =>
        (security_issues fm).foldl (fun m vuln => tallyStep m vuln.type) m) []) t 0 = _
    rw [tally_files_getD]
    simp [dictGetD]
  · intro pm
    rfl
  · intro s
    rfl

/-! ## Line/column lemmas (for `_get_line_number`) -/

lemma takeWhile_append_general (f : Char → Bool) :
    ∀ (l l' : List Char),
      (l ++ l').takeWhile f
        = l.takeWhile f ++ (if l.all f = true then l'.takeWhile f else []) := by
  intro l
  induction l with
  | nil => intro l'; simp
  | cons c cs ih =>
      intro l'
      by_cases hc : f c = true
      · simp only [List.cons_append, List.takeWhile_cons, hc, if_pos, List.all_cons,
          Bool.and_eq_true, ih l']
        by_cases hall : cs.all f = true
        · simp [hall, hc]
        · simp [hall, hc]
      · simp [List.takeWhile_cons, hc, List.all_cons]

lemma splitNl_no_nl :
    ∀ (l : List Char), l.count '\n' = 0 → splitNl l = [l] := by
  intro l
  induction l with
  | nil => intro _; rfl
  | cons c cs ih =>
      intro h
      have hmem : ('\n' : Char) ∉ (c :: cs) := List.count_eq_zero.mp h
      have hc : ¬(c = '\n') := by
        intro hh
        exact hmem (by rw [← hh]; exact List.mem_cons_self c cs)
      have hcs : cs.count '\n' = 0 :=
        List.count_eq_zero.mpr (fun hmm => hmem (List.mem_cons_of_mem c hmm))
      simp [splitNl, hc, ih hcs]

lemma splitNl_length :
    ∀ (l : List Char), (splitNl l).length = l.count '\n' + 1 := by
  intro l
  induction l with
  | nil => rfl
  | cons c cs ih =>
      by_cases hc : c = '\n'
      · subst hc
        simp [splitNl, ih, List.count_cons]
      · have hc' : ¬(('\n' : Char) = c) := fun hh => hc hh.symm
        have hcount : (c :: cs).count '\n' = cs.count '\n' := by
          simp [List.count_cons, hc, hc']
        simp only [splitNl, hc, if_neg, not_false_iff, hcount]
        cases hsp : splitNl cs with
        | nil => rw [hsp] at ih; simp at ih
        | cons h t =>
            rw [hsp] at ih
            simpa using ih

lemma getLastD_irrel {α : Type} :
    ∀ (t : List α), t ≠ [] → ∀ (x y : α), t.getLastD x = t.getLastD y := by
  intro t
  induction t with
  | nil => intro h; exact absurd rfl h
  | cons a tl ih =>
      intro _ x y
      cases tl with
      | nil => rfl
      | cons b tb =>
          show (b :: tb).getLastD a = (b :: tb).getLastD a
          rfl

lemma splitNl_getLastD :
    ∀ (l : List Char),
      (splitNl l).getLastD []
        = (l.reverse.takeWhile (fun c => c != '\n')).reverse := by
  intro l
  induction l with
  | nil => rfl
  | cons c cs ih =>
      by_cases hc : c = '\n'
      · subst hc
        have h0 : splitNl ('\n' :: cs) = [] :: splitNl cs := by simp [splitNl]
        rw [h0, List.getLastD_cons, ih, List.reverse_cons, takeWhile_append_general]
        have h1 : (['\n'].takeWhile (fun c => c != '\n')) = [] := rfl
        rw [h1]
        simp
      · have hfc : (fun x => x != '\n') c = true := by simp [hc]
        by_cases hcs : cs.count '\n' = 0
        · have hnin : ('\n' : Char) ∉ cs := List.count_eq_zero.mp hcs
          have hall : cs.reverse.all (fun x => x != '\n') = true := by
            rw [List.all_eq_true]
            intro x hx
            have hxcs : x ∈ cs := List.mem_reverse.mp hx
            have hxe : ¬(x = '\n') := fun hxe => hnin (hxe ▸ hxcs)
            simp [hxe]
          have hsp := splitNl_no_nl cs hcs
          have h0 : splitNl (c :: cs) = [c :: cs] := by simp [splitNl, hc, hsp]
          rw [h0, List.getLastD_cons]
          have h2 : cs.reverse.takeWhile (fun x => x != '\n') = cs.reverse :=
            List.takeWhile_eq_self_iff.mpr (List.all_eq_true.mp hall)
          rw [List.reverse_cons, takeWhile_append_general, hall, if_pos rfl, h2]
          have h1 : ([c].takeWhile (fun x => x != '\n')) = [c] := by simp [hfc]
          rw [h1]
          simp
        · have hmem : ('\n' : Char) ∈ cs := by
            by_contra hnm
            exact hcs (List.count_eq_zero.mpr hnm)
          have hall : cs.reverse.all (fun x => x != '\n') = false := by
            rw [Bool.eq_false_iff]
            intro hall
            have := List.all_eq_true.mp hall '\n' (List.mem_reverse.mpr hmem)
            simp at this
          have hlen : (splitNl cs).length = cs.count '\n' + 1 := splitNl_length cs
          cases hsp : splitNl cs with
          | nil => rw [hsp] at hlen; simp at hlen
          | cons h t =>
              have ht : t ≠ [] := by
                intro hte
                rw [hsp, hte] at hlen
                simp at hlen
                omega
              have h0 : splitNl (c :: cs) = (c :: h) :: t := by
                simp [splitNl, hc, hsp]
              rw [h0, List.getLastD_cons, getLastD_irrel t ht (c :: h) h]
              have hlhs : t.getLastD h = (splitNl cs).getLastD [] := by
                rw [hsp, List.getLastD_cons]
              rw [hlhs, ih, List.reverse_cons, takeWhile_append_general, hall]
              simp

/-- C4: `_get_line_number` returns line = 1 + the number of newlines strictly
before offset `p`, column = 1 + the number of characters between the last
newline before `p` (or the start) and `p`, and position = `p`, for every
content and every offset `p` up to the content length. -/
theorem get_line_number_correct :
    ∀ (content : String) (p : Nat), p ≤ content.length →
      _get_line_number content p =
        { line := 1 + newlinesBefore content p,
          column := 1 + charsSinceLastNewline content p,
          position := p } := by
  intro content p hp
  unfold _get_line_number newlinesBefore charsSinceLastNewline
  simp only [Location.mk.injEq]
  refine ⟨?_, ?_, trivial⟩
  · rw [splitNl_length]
    omega
  · rw [splitNl_getLastD, List.length_reverse]
    omega

/-- Witness for C4: the example from the spec, a match at the first character
of the third line of a 2-line-prefixed file resolves to line 3, column 1. -/
theorem get_line_number_correct_witness :
    _get_line_number "ab\ncd\nxyz" 6 =
      { line := 1 + newlinesBefore "ab\ncd\nxyz" 6,
        column := 1 + charsSinceLastNewline "ab\ncd\nxyz" 6,
        position := 6 } ∧
    _get_line_number "ab\ncd\nxyz" 6 = { line := 3, column := 1, position := 6 } :=
  ⟨get_line_number_correct "ab\ncd\nxyz" 6 (by decide), by decide⟩

/-! ## Matcher lemmas (literal prefixes and the negative lookahead) -/

lemma chEq_self (ci : Bool) (c : Char) : chEq ci c c = true := by
  cases ci <;> simp [chEq]

lemma matchSeq_lits (ci : Bool) :
    ∀ (p : List Char) (rs : List RE) (s : List Char),
      matchSeq ci (p.map RE.lit ++ rs) (p ++ s) = matchSeq ci rs s := by
  intro p
  induction p with
  | nil => intro rs s; rfl
  | cons c cp ih =>
      intro rs s
      show matchSeq ci (RE.lit c :: (cp.map RE.lit ++ rs)) (c :: (cp ++ s)) = _
      simp only [matchSeq]
      rw [if_pos (chEq_self ci c)]
      exact ih rs s

lemma matchSeq_lits_ci :
    ∀ (p w : List Char) (rs : List RE) (s : List Char),
      w.map Char.toLower = p.map Char.toLower →
      matchSeq true (p.map RE.lit ++ rs) (w ++ s) = matchSeq true rs s := by
  intro p
  induction p with
  | nil =>
      intro w rs s h
      simp only [List.map_nil, List.map_eq_nil_iff] at h
      subst h
      rfl
  | cons c cp ih =>
      intro w rs s h
      cases w with
      | nil => simp at h
      | cons a wt =>
          simp only [List.map_cons, List.cons.injEq] at h
          show matchSeq true (RE.lit c :: (cp.map RE.lit ++ rs)) (a :: (wt ++ s)) = _
          simp only [matchSeq]
          have hceq : chEq true c a = true := by
            simp [chEq, h.1]
          rw [if_pos hceq]
          exact ih wt rs s h.2

lemma lookQW_quoted_word (w t : List Char) (hw : w ≠ [])
    (hword : ∀ c ∈ w, wordChar c = true) :
    lookQW ('"' :: (w ++ '"' :: t)) = true := by
  have hlen : 1 ≤ w.length := by
    cases w with
    | nil => exact absurd rfl hw
    | cons a b => simp
  unfold lookQW
  rw [Bool.and_eq_true]
  constructor
  · rfl
  · rw [List.any_eq_true]
    refine ⟨w.length - 1, ?_, ?_⟩
    · rw [List.mem_range, List.length_append, List.length_cons]
      omega
    · have hk1 : w.length - 1 + 1 = w.length := by omega
      rw [hk1, Bool.and_eq_true]
      constructor
      · rw [List.take_left, List.all_eq_true]
        exact hword
      · rw [List.drop_left]
        rfl

/-- C5: during hardcoded-secret scanning, a match whose text contains the
os.environ or process.env idiom is discarded — the loop body leaves the
record (vulnerabilities and score) unchanged — while a structurally identical
assignment of a plain literal is recorded as a hardcoded_secret at
HIGH_RISK. -/
theorem hardcoded_secret_env_suppression :
    (∀ (content : String) (fm : FileMetrics) (start : Nat) (text : List Char),
       (sub_in "os.environ".data text || sub_in "process.env".data text) = true →
       secret_match_step content fm (start, text) = fm) ∧
    (_check_for_hardcoded_secrets (freshMetrics "python") "password = \"os.environ\""
       = freshMetrics "python") ∧
    ((_check_for_hardcoded_secrets (freshMetrics "python")
        "password = \"hunter2\"").security.vulnerabilities.map
          (fun v => (v.type, v.level, v.location.line))
       = [("hardcoded_secret", SecurityLevel.HIGH_RISK, 1)]) := by
  refine ⟨?_, by decide, by decide⟩
  intro content fm start text h
  simp [secret_match_step, h]

/-- Witness for C5 at a concrete input. -/
theorem hardcoded_secret_env_suppression_witness :
    secret_match_step "x" (freshMetrics "python") (0, "os.environ".data)
      = freshMetrics "python" :=
  hardcoded_secret_env_suppression.1 "x" (freshMetrics "python") 0
    "os.environ".data (by decide)

/-- C8 counterexample: the claim that a shell invocation whose argument is a
quoted string literal is never flagged is false — os.system("ls -la") has a
quoted string literal argument, yet the lookahead only recognizes
single-word literals, so an os_command_injection vulnerability is
recorded. -/
theorem os_quoted_literal_flagged_counterexample :
    (_check_for_os_command_injection (freshMetrics "python")
        "os.system(\"ls -la\")").security.vulnerabilities.map
      (fun v => (v.type, v.level))
      = [("os_command_injection", SecurityLevel.HIGH_RISK)] := by
  decide

/-- C8 (amended): the command-injection lookahead suppresses a shell
invocation exactly when its argument text begins with a quote, one or more
word characters, and a quote: for every non-empty all-word-character `w` and
any tail, the os.system pattern does not match os.system("w"...); concretely
os.system("ls") yields no vulnerability while the non-literal os.system(cmd)
is recorded. -/
theorem os_command_word_literal_amended :
    (∀ (w t : List Char), w ≠ [] → (∀ c ∈ w, wordChar c = true) →
       matchSeq false patOsSystem ("os.system(".data ++ '"' :: (w ++ '"' :: t)) = none) ∧
    (_check_for_os_command_injection (freshMetrics "python") "os.system(\"ls\")"
       = freshMetrics "python") ∧
    ((_check_for_os_command_injection (freshMetrics "python")
        "os.system(cmd)").security.vulnerabilities.map
      (fun v => (v.type, v.level, v.location.line))
       = [("os_command_injection", SecurityLevel.HIGH_RISK, 1)]) := by
  refine ⟨?_, by decide, by decide⟩
  intro w t hw hword
  have hlits := matchSeq_lits false "os.system(".data
    [RE.nlookQW, RE.star ccNotParen, RE.lit ')'] ('"' :: (w ++ '"' :: t))
  unfold patOsSystem lits
  rw [hlits]
  have hlq := lookQW_quoted_word w t hw hword
  simp [matchSeq, hlq]

/-- Witness for C8's amended theorem at a concrete input. -/
theorem os_command_word_literal_amended_witness :
    matchSeq false patOsSystem ("os.system(".data ++ '"' :: (['l', 's'] ++ '"' :: [')']))
      = none :=
  os_command_word_literal_amended.1 ['l', 's'] [')'] (by decide) (by decide)

/-- C10: hardcoded-secret detection is case-insensitive — matching the
password pattern consumes any letter-casing of the literal "password" — so
PASSWORD = "x" and Api_Key = "x" are each recorded as a hardcoded_secret at
HIGH_RISK, while the other rules are case-sensitive: OS.SYSTEM(user_input)
and EVAL(x) in Python content record nothing. -/
theorem secrets_case_insensitive_others_sensitive :
    (∀ (w s : List Char), w.map Char.toLower = "password".data →
       matchSeq true patSecretPassword (w ++ s) = matchSeq true patSecretTail s) ∧
    ((_analyze_python_security (freshMetrics "python") "PASSWORD = \"x\"" ()).security.vulnerabilities.map
        (fun v => (v.type, v.level))
      = [("hardcoded_secret", SecurityLevel.HIGH_RISK)]) ∧
    ((_analyze_python_security (freshMetrics "python") "Api_Key = \"x\"" ()).security.vulnerabilities.map
        (fun v => (v.type, v.level))
      = [("hardcoded_secret", SecurityLevel.HIGH_RISK)]) ∧
    (_analyze_python_security (freshMetrics "python") "OS.SYSTEM(user_input)" ()
      = freshMetrics "python") ∧
    (_analyze_python_security (freshMetrics "python") "EVAL(x)" ()
      = freshMetrics "python") := by
  refine ⟨?_, by decide, by decide, by decide, by decide⟩
  intro w s h
  have h' : w.map Char.toLower = "password".data.map Char.toLower := by
    rw [h]
    decide
  exact matchSeq_lits_ci "password".data w patSecretTail s h'

/-- Witness for C10 at a concrete input. -/
theorem secrets_case_insensitive_others_sensitive_witness :
    matchSeq true patSecretPassword ("PASSWORD".data ++ " = \"x\"".data)
      = matchSeq true patSecretTail " = \"x\"".data :=
  secrets_case_insensitive_others_sensitive.1 "PASSWORD".data " = \"x\"".data (by decide)
